import Mathlib

/-!
# Content Lifecycle & Ranking — a shallow embedding

A Lean 4 embedding of the article-publishing core of the `newly` news
backend (`backend/news/models.py`, `serializers.py`, `views.py`), together
with theorems settling the specification claims about it.

Python strings are modelled as Lean `String` (a list of unicode code
points, matching Python's `str` indexing/slicing semantics); `None`-able
columns as `Option`; timestamps as `Nat` instants; the database table as a
`List` of records.
-/

namespace Newly

/-! ## Python string primitives

`pyLen` is Python `len(s)` (code-point count), `pyTake s n` is `s[:n]`.
We work on `String.data` so that the model is exactly code-point based.
-/

def pyLen (s : String) : Nat := s.data.length

def pyTake (s : String) (n : Nat) : String := ⟨s.data.take n⟩

/-- Python `len(s.split())`: the number of maximal runs of
non-whitespace characters (Python `str.split()` with no argument splits on
runs of whitespace and drops empty strings). -/
def wordCountAux : Bool → List Char → Nat
  | _, [] => 0
  | inWord, c :: rest =>
    if c.isWhitespace then wordCountAux false rest
    else (if inWord then 0 else 1) + wordCountAux true rest

def wordCount (s : String) : Nat := wordCountAux false s.data

/-- Python 3 `round(num / den)` for natural `num`, `den > 0`.

Python's `round` on a float is round-half-to-even.  For `den = 200` the
quotient `num / den` is exactly representable as a double whenever it is a
half-integer (`num % 200 = 100` gives a dyadic rational `k + 1/2`), and
otherwise lies at distance at least `1/200` from the nearest half-integer
while the floating-point error is far smaller for any realistic word
count, so the float computation agrees with this exact rational
rounding. -/
def pyRoundDiv (num den : Nat) : Nat :=
  let q := num / den
  let r := num % den
  if 2 * r < den then q
  else if den < 2 * r then q + 1
  else if q % 2 = 0 then q else q + 1

/-! ## Decimal representation of naturals

Python's `f"{slug}-{counter}"` renders `counter` in decimal, which the
embedding writes as `toString counter` (Lean's `Nat.repr`).  To reason
about slug uniqueness we need that this rendering is injective; core and
Mathlib do not provide this, so we prove it here by relating
`Nat.toDigitsCore` to a structural recursion and parsing it back.
-/

/-- Most-significant-first decimal digits of `n`, as characters. -/
def decDigits (n : Nat) : List Char :=
  if _h : n < 10 then [Nat.digitChar n]
  else decDigits (n / 10) ++ [Nat.digitChar (n % 10)]
decreasing_by exact Nat.div_lt_self (by omega) (by omega)

theorem decDigits_lt (n : Nat) (h : n < 10) : decDigits n = [Nat.digitChar n] := by
  rw [decDigits]; simp [h]

theorem decDigits_ge (n : Nat) (h : ¬ n < 10) :
    decDigits n = decDigits (n / 10) ++ [Nat.digitChar (n % 10)] := by
  rw [decDigits]; simp [h]

theorem toDigitsCore_eq_decDigits :
    ∀ (fuel n : Nat) (ds : List Char), n < fuel →
      Nat.toDigitsCore 10 fuel n ds = decDigits n ++ ds := by
  intro fuel
  induction fuel with
  | zero => intro n ds h; omega
  | succ f ih =>
    intro n ds h
    show Nat.toDigitsCore 10 (f + 1) n ds = decDigits n ++ ds
    rw [Nat.toDigitsCore]
    by_cases hz : n / 10 = 0
    · have hn : n < 10 := by omega
      rw [if_pos hz, decDigits_lt n hn, Nat.mod_eq_of_lt hn]
      simp
    · have hn : ¬ n < 10 := by
        intro hlt
        exact hz (Nat.div_eq_of_lt hlt)
      have hdiv : n / 10 < f := by
        have h1 : n / 10 < n := Nat.div_lt_self (by omega) (by omega)
        omega
      rw [if_neg hz, ih (n / 10) _ hdiv, decDigits_ge n hn]
      simp

theorem toDigits_eq_decDigits (n : Nat) : Nat.toDigits 10 n = decDigits n := by
  have h := toDigitsCore_eq_decDigits (n + 1) n [] (Nat.lt_succ_self n)
  simpa [Nat.toDigits] using h

/-- Inverse of `Nat.digitChar` on decimal digits. -/
def decVal (c : Char) : Nat := c.toNat - '0'.toNat

def decParse : Nat → List Char → Nat
  | acc, [] => acc
  | acc, c :: cs => decParse (acc * 10 + decVal c) cs

theorem decParse_nil (acc : Nat) : decParse acc [] = acc := rfl

theorem decParse_cons (acc : Nat) (c : Char) (cs : List Char) :
    decParse acc (c :: cs) = decParse (acc * 10 + decVal c) cs := rfl

theorem decVal_digitChar : ∀ d : Nat, d < 10 → decVal (Nat.digitChar d) = d := by
  intro d h
  have hd : d = 0 ∨ d = 1 ∨ d = 2 ∨ d = 3 ∨ d = 4 ∨
      d = 5 ∨ d = 6 ∨ d = 7 ∨ d = 8 ∨ d = 9 := by omega
  rcases hd with rfl | rfl | rfl | rfl | rfl | rfl | rfl | rfl | rfl | rfl <;> rfl

theorem decParse_append (acc : Nat) (xs ys : List Char) :
    decParse acc (xs ++ ys) = decParse (decParse acc xs) ys := by
  induction xs generalizing acc with
  | nil => rfl
  | cons c cs ih =>
    rw [List.cons_append, decParse_cons, decParse_cons, ih]

theorem decParse_decDigits (n : Nat) :
    ∀ acc : Nat, decParse acc (decDigits n) = acc * 10 ^ (decDigits n).length + n := by
  induction n using Nat.strong_induction_on with
  | _ n ih =>
    intro acc
    by_cases h : n < 10
    · rw [decDigits_lt n h, decParse_cons, decParse_nil, decVal_digitChar n h]
      simp
    · rw [decDigits_ge n h, decParse_append]
      have hdiv : n / 10 < n := Nat.div_lt_self (by omega) (by omega)
      rw [ih (n / 10) hdiv acc]
      have hmod : n % 10 < 10 := Nat.mod_lt _ (by omega)
      rw [decParse_cons, decParse_nil, decVal_digitChar _ hmod]
      simp only [List.length_append, List.length_singleton]
      have : (acc * 10 ^ (decDigits (n / 10)).length + n / 10) * 10 + n % 10
          = acc * 10 ^ ((decDigits (n / 10)).length + 1) + (10 * (n / 10) + n % 10) := by
        ring
      rw [this, Nat.div_add_mod]

theorem decDigits_injective : Function.Injective decDigits := by
  intro m n h
  have hm := decParse_decDigits m 0
  have hn := decParse_decDigits n 0
  rw [h] at hm
  simpa [hn] using hm.symm

theorem natRepr_injective : Function.Injective Nat.repr := by
  intro m n h
  have hdata : (Nat.toDigits 10 m) = (Nat.toDigits 10 n) := by
    have : (Nat.toDigits 10 m).asString = (Nat.toDigits 10 n).asString := h
    simpa [List.asString] using congrArg String.data this
  rw [toDigits_eq_decDigits, toDigits_eq_decDigits] at hdata
  exact decDigits_injective hdata

theorem decDigits_ne_nil (n : Nat) : decDigits n ≠ [] := by
  by_cases h : n < 10
  · rw [decDigits_lt n h]; simp
  · rw [decDigits_ge n h]; simp

theorem natRepr_length_pos (n : Nat) : 0 < (Nat.repr n).length := by
  show 0 < (Nat.toDigits 10 n).asString.length
  rw [toDigits_eq_decDigits]
  have := decDigits_ne_nil n
  simp [List.asString, String.length]
  exact List.length_pos.mpr this

/-! ## Data model (`backend/news/models.py`)

Only the columns the verified logic touches are carried; `tags`, images
and the remaining free-text columns play no role in any claim.
-/

inductive ArticleStatus
  | draft
  | review
  | published
  | archived
deriving DecidableEq

inductive CampaignStatus
  | draft
  | scheduled
  | sent
deriving DecidableEq

structure Article where
  id : Nat
  title : String
  slug : String
  content : String
  excerpt : String
  author : Nat
  status : ArticleStatus
  published_at : Option Nat
  meta_title : String
  meta_description : String
  views_count : Nat
  read_time : Nat
deriving DecidableEq

/-- A `Newsletter` subscriber row (`models.Newsletter`). -/
structure Newsletter where
  email : String
  is_active : Bool
  confirmed_at : Option Nat
deriving DecidableEq

/-- A `NewsletterCampaign` row (`models.NewsletterCampaign`). -/
structure NewsletterCampaign where
  id : Nat
  title : String
  subject : String
  content : String
  status : CampaignStatus
  scheduled_at : Option Nat
  sent_at : Option Nat
  sent_count : Nat
deriving DecidableEq

/-- An `ArticleView` row (`models.ArticleView`); `unique_together =
['article', 'session_key']`. -/
structure ArticleViewRow where
  article : Nat
  user : Option Nat
  ip_address : String
  user_agent : String
  referrer : String
  session_key : String
deriving DecidableEq

/-! ## `Article.save` (`models.py` lines 139–164) -/

/-- The `while Article.objects.filter(slug=self.slug).exists()` loop in
`Article.save`.  `existing` is the set of slugs already stored, `base` the
`original_slug`.  The Python loop has no fuel; the `fuel` argument is only
a termination device, and `uniqueSlug_not_mem` below shows that the fuel
supplied by `uniqueSlug` is never exhausted (the visited candidates are
pairwise distinct, so a free one is found within `existing.length + 2`
steps). -/
def slugLoop (existing : List String) (base : String) : String → Nat → Nat → String
  | slug, _counter, 0 => slug
  | slug, counter, fuel + 1 =>
    if slug ∈ existing then
      slugLoop existing base (base ++ "-" ++ toString counter) (counter + 1) fuel
    else slug

theorem slugLoop_zero (existing : List String) (base slug : String) (counter : Nat) :
    slugLoop existing base slug counter 0 = slug := rfl

theorem slugLoop_succ (existing : List String) (base slug : String) (counter fuel : Nat) :
    slugLoop existing base slug counter (fuel + 1) =
      if slug ∈ existing then
        slugLoop existing base (base ++ "-" ++ toString counter) (counter + 1) fuel
      else slug := rfl

/-- Slug assignment for an article saved without a slug: start from the
slugified title and append `-1`, `-2`, … while the candidate is taken. -/
def uniqueSlug (existing : List String) (base : String) : String :=
  slugLoop existing base base 1 (existing.length + 2)

/-- From `Article.save`, slug block (`models.py` 140–147): `if not self.slug`,
derive a unique slug from the title. -/
def deriveSlug (slugify : String → String) (existingSlugs : List String)
    (a : Article) : Article :=
  if a.slug = "" then
    { a with slug := uniqueSlug existingSlugs (slugify a.title) }
  else a

/-- From `Article.save`, excerpt block (`models.py` 149–151): `if not
self.excerpt and self.content`, truncate to 497 characters plus `"..."`
when the content exceeds 500 characters, else use the content verbatim. -/
def deriveExcerpt (a : Article) : Article :=
  if a.excerpt = "" ∧ a.content ≠ "" then
    { a with excerpt :=
        if 500 < pyLen a.content then pyTake a.content 497 ++ "..." else a.content }
  else a

/-- From `Article.save`, SEO block (`models.py` 153–157). -/
def deriveMeta (a : Article) : Article :=
  let a1 := if a.meta_title = "" then { a with meta_title := pyTake a.title 60 } else a
  if a1.meta_description = "" then
    { a1 with meta_description := if a1.excerpt ≠ "" then pyTake a1.excerpt 160 else "" }
  else a1

/-- From `Article.save`, read-time block (`models.py` 159–162): `if
self.content`, recompute `read_time` as `max(1, round(word_count / 200))`. -/
def deriveReadTime (a : Article) : Article :=
  if a.content ≠ "" then
    { a with read_time := max 1 (pyRoundDiv (wordCount a.content) 200) }
  else a

/-- From `Article.save` (`models.py` 139–164): the four derivation blocks in
source order, then the row is persisted.  `slugify` is
`django.utils.text.slugify`, an external collaborator, taken as a
parameter; `existingSlugs` are the slugs already present in the store
(the `Article.objects.filter(slug=...)` lookups).  Python string
truthiness (`if not self.slug`, `if self.content`) is emptiness on `str`
columns. -/
def Article.save (slugify : String → String) (existingSlugs : List String)
    (a : Article) : Article :=
  deriveReadTime (deriveMeta (deriveExcerpt (deriveSlug slugify existingSlugs a)))

/-! ### Field bookkeeping for the save steps

Each derivation block writes one field (the SEO block two) and reads but
never writes the others.
-/

theorem deriveSlug_title (f : String → String) (ex : List String) (a : Article) :
    (deriveSlug f ex a).title = a.title := by
  unfold deriveSlug; split <;> rfl

theorem deriveSlug_content (f : String → String) (ex : List String) (a : Article) :
    (deriveSlug f ex a).content = a.content := by
  unfold deriveSlug; split <;> rfl

theorem deriveSlug_excerpt (f : String → String) (ex : List String) (a : Article) :
    (deriveSlug f ex a).excerpt = a.excerpt := by
  unfold deriveSlug; split <;> rfl

theorem deriveSlug_status (f : String → String) (ex : List String) (a : Article) :
    (deriveSlug f ex a).status = a.status := by
  unfold deriveSlug; split <;> rfl

theorem deriveSlug_published_at (f : String → String) (ex : List String) (a : Article) :
    (deriveSlug f ex a).published_at = a.published_at := by
  unfold deriveSlug; split <;> rfl

theorem deriveSlug_read_time (f : String → String) (ex : List String) (a : Article) :
    (deriveSlug f ex a).read_time = a.read_time := by
  unfold deriveSlug; split <;> rfl

theorem deriveExcerpt_slug (a : Article) : (deriveExcerpt a).slug = a.slug := by
  unfold deriveExcerpt; split <;> rfl

theorem deriveExcerpt_content (a : Article) : (deriveExcerpt a).content = a.content := by
  unfold deriveExcerpt; split <;> rfl

theorem deriveExcerpt_status (a : Article) : (deriveExcerpt a).status = a.status := by
  unfold deriveExcerpt; split <;> rfl

theorem deriveExcerpt_published_at (a : Article) :
    (deriveExcerpt a).published_at = a.published_at := by
  unfold deriveExcerpt; split <;> rfl

theorem deriveExcerpt_read_time (a : Article) :
    (deriveExcerpt a).read_time = a.read_time := by
  unfold deriveExcerpt; split <;> rfl

theorem deriveMeta_slug (a : Article) : (deriveMeta a).slug = a.slug := by
  unfold deriveMeta; dsimp only; split <;> split <;> rfl

theorem deriveMeta_content (a : Article) : (deriveMeta a).content = a.content := by
  unfold deriveMeta; dsimp only; split <;> split <;> rfl

theorem deriveMeta_excerpt (a : Article) : (deriveMeta a).excerpt = a.excerpt := by
  unfold deriveMeta; dsimp only; split <;> split <;> rfl

theorem deriveMeta_status (a : Article) : (deriveMeta a).status = a.status := by
  unfold deriveMeta; dsimp only; split <;> split <;> rfl

theorem deriveMeta_published_at (a : Article) :
    (deriveMeta a).published_at = a.published_at := by
  unfold deriveMeta; dsimp only; split <;> split <;> rfl

theorem deriveMeta_read_time (a : Article) : (deriveMeta a).read_time = a.read_time := by
  unfold deriveMeta; dsimp only; split <;> split <;> rfl

theorem deriveReadTime_slug (a : Article) : (deriveReadTime a).slug = a.slug := by
  unfold deriveReadTime; split <;> rfl

theorem deriveReadTime_excerpt (a : Article) :
    (deriveReadTime a).excerpt = a.excerpt := by
  unfold deriveReadTime; split <;> rfl

theorem deriveReadTime_status (a : Article) :
    (deriveReadTime a).status = a.status := by
  unfold deriveReadTime; split <;> rfl

theorem deriveReadTime_published_at (a : Article) :
    (deriveReadTime a).published_at = a.published_at := by
  unfold deriveReadTime; split <;> rfl

theorem save_slug (f : String → String) (ex : List String) (a : Article) :
    (Article.save f ex a).slug = (deriveSlug f ex a).slug := by
  unfold Article.save
  rw [deriveReadTime_slug, deriveMeta_slug, deriveExcerpt_slug]

theorem save_excerpt (f : String → String) (ex : List String) (a : Article) :
    (Article.save f ex a).excerpt = (deriveExcerpt (deriveSlug f ex a)).excerpt := by
  unfold Article.save
  rw [deriveReadTime_excerpt, deriveMeta_excerpt]

theorem save_read_time (f : String → String) (ex : List String) (a : Article) :
    (Article.save f ex a).read_time = (deriveReadTime
      (deriveMeta (deriveExcerpt (deriveSlug f ex a)))).read_time := rfl

theorem save_content (f : String → String) (ex : List String) (a : Article) :
    (Article.save f ex a).content = a.content := by
  unfold Article.save deriveReadTime
  split <;> rw [deriveMeta_content, deriveExcerpt_content, deriveSlug_content]

theorem save_status (f : String → String) (ex : List String) (a : Article) :
    (Article.save f ex a).status = a.status := by
  unfold Article.save deriveReadTime
  split <;> rw [deriveMeta_status, deriveExcerpt_status, deriveSlug_status]

theorem save_published_at (f : String → String) (ex : List String) (a : Article) :
    (Article.save f ex a).published_at = a.published_at := by
  unfold Article.save
  rw [deriveReadTime_published_at, deriveMeta_published_at,
    deriveExcerpt_published_at, deriveSlug_published_at]

/-! ### Properties of the slug loop -/

theorem slugLoop_of_free (existing : List String) (base slug : String)
    (counter fuel : Nat) (h : slug ∉ existing) :
    slugLoop existing base slug counter fuel = slug := by
  cases fuel with
  | zero => rfl
  | succ f => rw [slugLoop_succ, if_neg h]

/-- If the loop result is still a taken slug, every candidate it visited —
the starting slug and `base-counter`, …, `base-(counter+fuel-1)` — was
taken. -/
theorem slugLoop_mem (existing : List String) (base : String) :
    ∀ (fuel : Nat) (slug : String) (counter : Nat),
      slugLoop existing base slug counter fuel ∈ existing →
      slug ∈ existing ∧
        ∀ j, counter ≤ j → j < counter + fuel → (base ++ "-" ++ toString j) ∈ existing := by
  intro fuel
  induction fuel with
  | zero =>
    intro slug counter h
    exact ⟨h, fun j h1 h2 => absurd h1 (by omega)⟩
  | succ f ih =>
    intro slug counter h
    by_cases hs : slug ∈ existing
    · rw [slugLoop_succ, if_pos hs] at h
      obtain ⟨h1, h2⟩ := ih _ _ h
      refine ⟨hs, fun j hj1 hj2 => ?_⟩
      by_cases hj : j = counter
      · subst hj; exact h1
      · exact h2 j (by omega) (by omega)
    · rw [slugLoop_succ, if_neg hs] at h
      exact absurd h hs

/-- The suffixed candidates `base-1`, `base-2`, … are pairwise distinct. -/
theorem slugCand_injective (base : String) :
    Function.Injective (fun k : Nat => base ++ "-" ++ toString k) := by
  intro i j h
  apply natRepr_injective
  have hd := congrArg String.data h
  simp only [String.data_append] at hd
  show Nat.repr i = Nat.repr j
  exact String.ext (List.append_cancel_left hd)

/-- The loop never exhausts the fuel budget `existing.length + 2`: the
resulting slug is unused. -/
theorem uniqueSlug_not_mem (existing : List String) (base : String) :
    uniqueSlug existing base ∉ existing := by
  intro hmem
  obtain ⟨-, hall⟩ := slugLoop_mem existing base (existing.length + 2) base 1 hmem
  set cand : Nat → String := fun k => base ++ "-" ++ toString k with hcand
  have hsub : (List.range' 1 (existing.length + 2)).map cand ⊆ existing := by
    intro s hs
    obtain ⟨j, hj, rfl⟩ := List.mem_map.mp hs
    rw [List.mem_range'] at hj
    exact hall j (by omega) (by omega)
  have hndc : ((List.range' 1 (existing.length + 2)).map cand).Nodup :=
    (List.nodup_range' 1 (existing.length + 2)).map (slugCand_injective base)
  have hle := (List.subperm_of_subset hndc hsub).length_le
  simp only [List.length_map, List.length_range'] at hle
  omega

/-- When the base slug is free the loop keeps it unchanged. -/
theorem uniqueSlug_of_free (existing : List String) (base : String)
    (h : base ∉ existing) : uniqueSlug existing base = base :=
  slugLoop_of_free _ _ _ _ _ h

/-- First-free-suffix analysis of the loop: a free result is either the
starting slug, or `base-k` for some `k ≥ counter` with every earlier
candidate from `counter` on taken. -/
theorem slugLoop_first (existing : List String) (base : String) :
    ∀ (fuel : Nat) (slug : String) (counter : Nat),
      slugLoop existing base slug counter fuel ∉ existing →
      slugLoop existing base slug counter fuel = slug ∨
        (slug ∈ existing ∧ ∃ k, counter ≤ k ∧
          slugLoop existing base slug counter fuel = base ++ "-" ++ toString k ∧
          ∀ j, counter ≤ j → j < k → (base ++ "-" ++ toString j) ∈ existing) := by
  intro fuel
  induction fuel with
  | zero => intro slug counter _; exact Or.inl rfl
  | succ f ih =>
    intro slug counter hfree
    by_cases hs : slug ∈ existing
    · rw [slugLoop_succ, if_pos hs] at hfree ⊢
      rcases ih _ _ hfree with heq | ⟨hmem, k, hk1, hk2, hk3⟩
      · exact Or.inr ⟨hs, counter, Nat.le_refl _, heq, fun j h1 h2 => absurd h1 (by omega)⟩
      · refine Or.inr ⟨hs, k, by omega, hk2, fun j h1 h2 => ?_⟩
        by_cases hj : j = counter
        · subst hj; exact hmem
        · exact hk3 j (by omega) h2
    · rw [slugLoop_succ, if_neg hs]
      exact Or.inl rfl

/-- The slug chosen for a taken base is `base-k` for the **first** free
suffix `k ≥ 1`. -/
theorem uniqueSlug_of_taken (existing : List String) (base : String)
    (hb : base ∈ existing) :
    ∃ k, 1 ≤ k ∧ uniqueSlug existing base = base ++ "-" ++ toString k ∧
      (base ++ "-" ++ toString k) ∉ existing ∧
      ∀ j, 1 ≤ j → j < k → (base ++ "-" ++ toString j) ∈ existing := by
  have hfree := uniqueSlug_not_mem existing base
  rcases slugLoop_first existing base (existing.length + 2) base 1 hfree with heq | ⟨-, k, hk1, hk2, hk3⟩
  · rw [show slugLoop existing base base 1 (existing.length + 2) = uniqueSlug existing base from rfl] at heq
    rw [heq] at hfree
    exact absurd hb hfree
  · refine ⟨k, hk1, hk2, ?_, hk3⟩
    rw [show slugLoop existing base base 1 (existing.length + 2) = uniqueSlug existing base from rfl] at hk2
    rw [← hk2]
    exact hfree

/-! ## Serializers (`backend/news/serializers.py`) and viewset wiring
(`backend/news/views.py`)

`ApiAction.patch` stands for the DRF PATCH branch of
`get_serializer_class` (`self.action in ['update', 'partial_update']`),
which selects the same serializer as `update`.
-/

inductive ApiAction
  | list
  | retrieve
  | create
  | update
  | patch
deriving DecidableEq

inductive ArticleSerializerClass
  | articleListSerializer
  | articleDetailSerializer
  | articleCreateSerializer
  | articleUpdateSerializer
deriving DecidableEq

/-- From `ArticleViewSet.get_serializer_class` (`views.py` 546–555).  Note the
update branches return `ArticleUpdateSerializer`;
`ArticleCreateUpdateSerializer` is never selected (it is not even imported
by `views.py`). -/
def articleGetSerializerClass : ApiAction → ArticleSerializerClass
  | .list => .articleListSerializer
  | .retrieve => .articleDetailSerializer
  | .create => .articleCreateSerializer
  | .update => .articleUpdateSerializer
  | .patch => .articleUpdateSerializer

/-- The writable payload of an article update request; `none` marks a
field absent from the request.  `published_at := some none` is an explicit
`null`.  Fields not involved in any claim are elided. -/
structure ArticleUpdateData where
  title : Option String
  content : Option String
  excerpt : Option String
  status : Option ArticleStatus
  published_at : Option (Option Nat)
deriving DecidableEq

/-- The generic `for attr, value in validated_data.items(): setattr(...)`
step of `ModelSerializer.update`. -/
def applyArticleData (a : Article) (d : ArticleUpdateData) : Article :=
  let a := match d.title with | some v => { a with title := v } | none => a
  let a := match d.content with | some v => { a with content := v } | none => a
  let a := match d.excerpt with | some v => { a with excerpt := v } | none => a
  let a := match d.status with | some v => { a with status := v } | none => a
  match d.published_at with | some v => { a with published_at := v } | none => a

/-- From `ArticleUpdateSerializer` (`serializers.py` 217–229) declares fields
only: it inherits `ModelSerializer.update`, which applies the validated
fields and calls `inst.save()` (the model save with its
derivations). -/
def ArticleUpdateSerializer.update (slugify : String → String)
    (existingSlugs : List String) (inst : Article) (d : ArticleUpdateData) : Article :=
  Article.save slugify existingSlugs (applyArticleData inst d)

/-- From `ArticleCreateUpdateSerializer.validate_status` (`serializers.py`
360–364). -/
def ArticleCreateUpdateSerializer.validate_status (inst : Option Article)
    (value : ArticleStatus) : Except String ArticleStatus :=
  match inst with
  | some i =>
    if i.status = ArticleStatus.published ∧ value = ArticleStatus.draft then
      Except.error "Cannot change published article back to draft"
    else Except.ok value
  | none => Except.ok value

/-- From `ArticleCreateUpdateSerializer.update` (`serializers.py` 390–407):
stamps `published_at` when the status moves to `published`, the inst
was not yet published, and the request carries no (truthy)
`published_at`. -/
def ArticleCreateUpdateSerializer.update (slugify : String → String)
    (existingSlugs : List String) (now : Nat) (inst : Article)
    (d : ArticleUpdateData) : Article :=
  let d := if d.status = some ArticleStatus.published ∧
      inst.status ≠ ArticleStatus.published ∧
      (d.published_at = none ∨ d.published_at = some none) then
      { d with published_at := some (some now) }
    else d
  Article.save slugify existingSlugs (applyArticleData inst d)

/-- From `ArticleCreateSerializer.create` (`serializers.py` 211–216) followed by
the model insert: sets the author from the request, stamps `published_at`
when created directly as `published` without one, and saves a fresh row
(blank slug/excerpt/meta, zero counters — the model field defaults). -/
def ArticleCreateSerializer.create (slugify : String → String)
    (existingSlugs : List String) (now : Nat) (requestUser : Nat) (newId : Nat)
    (title content excerpt : String) (status : ArticleStatus)
    (published_at : Option Nat) : Article :=
  let pub := if status = ArticleStatus.published ∧ published_at = none
    then some now else published_at
  Article.save slugify existingSlugs
    { id := newId, title := title, slug := "", content := content,
      excerpt := excerpt, author := requestUser, status := status,
      published_at := pub, meta_title := "", meta_description := "",
      views_count := 0, read_time := 0 }

/-- PUT/PATCH `/articles/{id}/` end to end: the viewset selects
`ArticleUpdateSerializer` (see `articleGetSerializerClass`), which has no
`validate_status` — validation always succeeds — and then the inherited
`ModelSerializer.update` runs. -/
def articleApiUpdate (slugify : String → String) (existingSlugs : List String)
    (inst : Article) (d : ArticleUpdateData) : Except String Article :=
  Except.ok (ArticleUpdateSerializer.update slugify existingSlugs inst d)

inductive CampaignSerializerClass
  | campaignListSerializer
  | campaignSerializer
  | campaignCreateUpdateSerializer
deriving DecidableEq

/-- From `NewsletterCampaignViewSet.get_serializer_class` (`views.py`
927–934): mutations use `NewsletterCampaignCreateUpdateSerializer`; the
serializer carrying `validate_status` is selected only for `retrieve`. -/
def campaignGetSerializerClass : ApiAction → CampaignSerializerClass
  | .list => .campaignListSerializer
  | .retrieve => .campaignSerializer
  | .create => .campaignCreateUpdateSerializer
  | .update => .campaignCreateUpdateSerializer
  | .patch => .campaignCreateUpdateSerializer

/-- From `NewsletterCampaignSerializer.validate_status` (`serializers.py`
567–572). -/
def NewsletterCampaignSerializer.validate_status
    (inst : Option NewsletterCampaign) (value : CampaignStatus) :
    Except String CampaignStatus :=
  match inst with
  | some i =>
    if i.status = CampaignStatus.sent ∧ value ≠ CampaignStatus.sent then
      Except.error "Cannot change status of sent campaign"
    else Except.ok value
  | none => Except.ok value

/-- The writable payload of a campaign update; fields are those of
`NewsletterCampaignCreateUpdateSerializer.Meta.fields` that any claim
touches. -/
structure CampaignUpdateData where
  title : Option String
  subject : Option String
  content : Option String
  status : Option CampaignStatus
  scheduled_at : Option (Option Nat)
deriving DecidableEq

def applyCampaignData (c : NewsletterCampaign) (d : CampaignUpdateData) :
    NewsletterCampaign :=
  let c := match d.title with | some v => { c with title := v } | none => c
  let c := match d.subject with | some v => { c with subject := v } | none => c
  let c := match d.content with | some v => { c with content := v } | none => c
  let c := match d.status with | some v => { c with status := v } | none => c
  match d.scheduled_at with | some v => { c with scheduled_at := v } | none => c

/-- From `NewsletterCampaignCreateUpdateSerializer` (`serializers.py` 593–610)
defines no `validate_status` and no `update`: the inherited
`ModelSerializer.update` applies the fields (the campaign model has no
custom `save`). -/
def NewsletterCampaignCreateUpdateSerializer.update
    (inst : NewsletterCampaign) (d : CampaignUpdateData) : NewsletterCampaign :=
  applyCampaignData inst d

/-- PUT/PATCH `/newsletter-campaigns/{id}/` end to end. -/
def campaignApiUpdate (inst : NewsletterCampaign) (d : CampaignUpdateData) :
    Except String NewsletterCampaign :=
  Except.ok (NewsletterCampaignCreateUpdateSerializer.update inst d)

/-! ## View-layer operations (`backend/news/views.py`) -/

/-- From `Newsletter.objects.filter(is_active=True, confirmed_at__isnull=False)`
from `NewsletterCampaignViewSet.send`. -/
def activeSubscribers (subs : List Newsletter) : List Newsletter :=
  subs.filter (fun s => s.is_active && s.confirmed_at.isSome)

/-- From `NewsletterCampaignViewSet.send` (`views.py` 941–975): refuse an
already-sent campaign, refuse when no subscriber qualifies, otherwise mark
the campaign sent with the subscriber count snapshot.  An `error` result
carries the 400 response's message and leaves the row untouched (the code
returns before any mutation). -/
def NewsletterCampaignViewSet.send (now : Nat) (campaign : NewsletterCampaign)
    (subs : List Newsletter) : Except String NewsletterCampaign :=
  if campaign.status = CampaignStatus.sent then
    Except.error "Campaign has already been sent"
  else
    let subscribers := activeSubscribers subs
    if subscribers.isEmpty then
      Except.error "No active subscribers found"
    else
      Except.ok { campaign with
        status := CampaignStatus.sent
        sent_at := some now
        sent_count := subscribers.length }

/-- From `ArticleView.objects.get_or_create(article=..., session_key=...,
defaults=view_data)`: at most one row per (article, session_key); an
existing row is left unmodified. -/
def getOrCreateView (rows : List ArticleViewRow) (row : ArticleViewRow) :
    List ArticleViewRow :=
  if rows.any (fun r => r.article == row.article && r.session_key == row.session_key) then
    rows
  else rows ++ [row]

/-- The `view_data` record assembled by `track_article_view`. -/
def view_data (aid : Nat) (user : Option Nat)
    (ip user_agent referrer session_key : String) : ArticleViewRow :=
  { article := aid, user := user, ip_address := ip,
    user_agent := user_agent, referrer := referrer,
    session_key := session_key }

/-- From `ArticleViewSet.track_article_view` (`views.py` 560–601): deduplicate
the `ArticleView` row by (article, session_key), then unconditionally
increment `views_count` and persist only that field
(`article.save(update_fields=['views_count'])` writes nothing else to the
store). -/
def ArticleViewSet.track_article_view (rows : List ArticleViewRow)
    (article : Article) (user : Option Nat)
    (ip user_agent referrer session_key : String) :
    List ArticleViewRow × Article :=
  let rows2 := getOrCreateView rows
    (view_data article.id user ip user_agent referrer session_key)
  (rows2, { article with views_count := article.views_count + 1 })

theorem getOrCreateView_of_absent (rows : List ArticleViewRow)
    (row : ArticleViewRow)
    (h : rows.any (fun r =>
      r.article == row.article && r.session_key == row.session_key) = false) :
    getOrCreateView rows row = rows ++ [row] := by
  unfold getOrCreateView
  rw [h]
  rfl

theorem getOrCreateView_of_present (rows : List ArticleViewRow)
    (row : ArticleViewRow)
    (h : rows.any (fun r =>
      r.article == row.article && r.session_key == row.session_key) = true) :
    getOrCreateView rows row = rows := by
  unfold getOrCreateView
  rw [h]
  rfl

/-- The authenticated requester, as `ArticleViewSet.get_queryset` sees it. -/
structure RequestUser where
  id : Nat
  is_staff : Bool
deriving DecidableEq

/-- From `ArticleViewSet.get_queryset` (`views.py` 531–544): anonymous readers
see published articles only; authenticated non-staff see published
articles plus their own; staff see everything. -/
def ArticleViewSet.get_queryset (user : Option RequestUser)
    (store : List Article) : List Article :=
  match user with
  | none => store.filter (fun a => decide (a.status = ArticleStatus.published))
  | some u =>
    if u.is_staff then store
    else store.filter (fun a =>
      decide (a.status = ArticleStatus.published) || decide (a.author = u.id))

/-- From `published_at__gte=since` on a nullable column: `NULL` never satisfies
a `__gte` lookup. -/
def pubAtGe (a : Article) (since : Nat) : Bool :=
  match a.published_at with
  | some t => decide (since ≤ t)
  | none => false

/-- From `ArticleViewSet.trending` (`views.py` 637–652): on top of
`get_queryset`, keep published articles with `published_at >= now - days`,
order by descending `views_count`, truncate to `limit`.  `now - days` is
the `timezone.now() - timedelta(days=days)` instant (time is measured in
days here). -/
def ArticleViewSet.trending (user : Option RequestUser) (now days limit : Nat)
    (store : List Article) : List Article :=
  let since := now - days
  (((ArticleViewSet.get_queryset user store).filter (fun a =>
      decide (a.status = ArticleStatus.published) && pubAtGe a since)).mergeSort
    (fun a b => decide (b.views_count ≤ a.views_count))).take limit

theorem pubAtGe_iff (a : Article) (s : Nat) :
    pubAtGe a s = true ↔ ∃ t, a.published_at = some t ∧ s ≤ t := by
  unfold pubAtGe
  cases h : a.published_at with
  | none => simp
  | some t => simp

/-- Collapsing `get_queryset` under a published-only filter: every
requester is shown the same candidates by any query that itself keeps only
published articles. -/
theorem filter_get_queryset (user : Option RequestUser) (store : List Article)
    (p : Article → Bool)
    (hp : ∀ a, p a = true → a.status = ArticleStatus.published) :
    (ArticleViewSet.get_queryset user store).filter p = store.filter p := by
  have hpt : ∀ q : Article → Bool,
      (∀ a, p a = true → q a = true) →
      (store.filter q).filter p = store.filter p := by
    intro q hq
    rw [List.filter_filter]
    apply List.filter_congr
    intro a _
    cases hpa : p a with
    | false => rw [Bool.false_and]
    | true => rw [Bool.true_and]; exact hq a hpa
  cases user with
  | none =>
    unfold ArticleViewSet.get_queryset
    dsimp only
    exact hpt _ (fun a hpa => decide_eq_true (hp a hpa))
  | some u =>
    unfold ArticleViewSet.get_queryset
    dsimp only
    by_cases hs : u.is_staff = true
    · rw [if_pos hs]
    · rw [if_neg hs]
      refine hpt _ (fun a hpa => ?_)
      rw [Bool.or_eq_true]
      exact Or.inl (decide_eq_true (hp a hpa))

/-- From `trending` in closed form over the raw store. -/
theorem trending_eq (user : Option RequestUser) (now days limit : Nat)
    (store : List Article) :
    ArticleViewSet.trending user now days limit store =
      ((store.filter (fun a => decide (a.status = ArticleStatus.published) &&
          pubAtGe a (now - days))).mergeSort
        (fun a b => decide (b.views_count ≤ a.views_count))).take limit := by
  unfold ArticleViewSet.trending
  dsimp only
  rw [filter_get_queryset]
  intro a hpa
  rw [Bool.and_eq_true] at hpa
  exact of_decide_eq_true hpa.1

/-! ## Sample rows used by the witnesses -/

/-- A published sample article for the ranking scenarios. -/
def mkPubArt (id views : Nat) (pub : Option Nat) : Article :=
  { id := id, title := "T", slug := "t", content := "c", excerpt := "e",
    author := 1, status := ArticleStatus.published, published_at := pub,
    meta_title := "T", meta_description := "e", views_count := views,
    read_time := 1 }

/-- Five published articles; only ids 1 and 2 fall within the 3-day
window of instant 10, with views 50 and 200. -/
def trendingScenarioStore : List Article :=
  [mkPubArt 1 50 (some 8), mkPubArt 2 200 (some 9), mkPubArt 3 999 (some 1),
    mkPubArt 4 7 (some 2), mkPubArt 5 5 (some 3)]

/-- A 650-character content string. -/
def content650 : String := ⟨List.replicate 650 'x'⟩

/-- An article with 650 characters of content and no explicit excerpt. -/
def art650 : Article :=
  { id := 9, title := "Long", slug := "long", content := content650,
    excerpt := "", author := 1, status := ArticleStatus.draft,
    published_at := none, meta_title := "Long", meta_description := "",
    views_count := 0, read_time := 0 }

/-- An article with short content and no explicit excerpt. -/
def artNoExcerpt : Article :=
  { id := 10, title := "Short", slug := "short", content := "Body",
    excerpt := "", author := 1, status := ArticleStatus.draft,
    published_at := none, meta_title := "Short", meta_description := "",
    views_count := 0, read_time := 0 }

/-- An article about to be saved for the first time: its slug is blank. -/
def artBlankSlug : Article :=
  { id := 11, title := "T", slug := "", content := "c", excerpt := "e",
    author := 1, status := ArticleStatus.draft, published_at := none,
    meta_title := "T", meta_description := "e", views_count := 0,
    read_time := 0 }

/-- A draft article that has never been published. -/
def artDraftNoPub : Article :=
  { id := 12, title := "Draft", slug := "draft-a", content := "Body here",
    excerpt := "Body here", author := 1, status := ArticleStatus.draft,
    published_at := none, meta_title := "Draft",
    meta_description := "Body here", views_count := 0, read_time := 1 }

/-- An update request that only moves the status to `draft`. -/
def draftStatusData : ArticleUpdateData :=
  { title := none, content := none, excerpt := none,
    status := some ArticleStatus.draft, published_at := none }

/-- An update request that only moves the status to `published`, with no
`published_at` supplied. -/
def publishStatusData : ArticleUpdateData :=
  { title := none, content := none, excerpt := none,
    status := some ArticleStatus.published, published_at := none }

/-- A campaign update request that only moves the status to `draft`. -/
def campaignDraftStatusData : CampaignUpdateData :=
  { title := none, subject := none, content := none,
    status := some CampaignStatus.draft, scheduled_at := none }

def subOk : Newsletter :=
  { email := "reader@example.com", is_active := true, confirmed_at := some 1 }

def artPub : Article :=
  { id := 1, title := "Hello", slug := "hello", content := "Body text",
    excerpt := "Body text", author := 1, status := ArticleStatus.published,
    published_at := some 5, meta_title := "Hello",
    meta_description := "Body text", views_count := 0, read_time := 1 }

def campDraft : NewsletterCampaign :=
  { id := 1, title := "Issue 1", subject := "News", content := "Body",
    status := CampaignStatus.draft, scheduled_at := none, sent_at := none,
    sent_count := 0 }

def campSent : NewsletterCampaign :=
  { id := 2, title := "Issue 0", subject := "Old", content := "Body",
    status := CampaignStatus.sent, scheduled_at := none, sent_at := some 2,
    sent_count := 5 }

/-! ## Claims -/

/-- Claim C4: `send(campaign)` fails with an "already sent" error when the
campaign is already `sent`; fails with a "no subscribers" error when no
`Newsletter` row has `is_active = true` and non-null `confirmed_at`;
otherwise it marks the campaign `sent`, stamps `sent_at = now`, and sets
`sent_count` to the number of qualifying subscribers at the moment of the
call.  Both error outcomes return before any mutation, so the campaign row
is untouched in those cases. -/
theorem send_campaign_spec (now : Nat) (c : NewsletterCampaign)
    (subs : List Newsletter) :
    (c.status = CampaignStatus.sent →
      NewsletterCampaignViewSet.send now c subs =
        Except.error "Campaign has already been sent") ∧
    (c.status ≠ CampaignStatus.sent →
      (∀ s ∈ subs, ¬(s.is_active = true ∧ s.confirmed_at ≠ none)) →
      NewsletterCampaignViewSet.send now c subs =
        Except.error "No active subscribers found") ∧
    (c.status ≠ CampaignStatus.sent →
      (∃ s ∈ subs, s.is_active = true ∧ s.confirmed_at ≠ none) →
      NewsletterCampaignViewSet.send now c subs =
        Except.ok { c with
          status := CampaignStatus.sent
          sent_at := some now
          sent_count := subs.countP (fun s => s.is_active && s.confirmed_at.isSome) }) := by
  have hq : ∀ s : Newsletter,
      (s.is_active && s.confirmed_at.isSome) = true ↔
        (s.is_active = true ∧ s.confirmed_at ≠ none) := by
    intro s
    rw [Bool.and_eq_true, Option.isSome_iff_ne_none]
  refine ⟨fun hsent => ?_, fun hns hall => ?_, fun hns ⟨s, hs, hsa⟩ => ?_⟩
  · unfold NewsletterCampaignViewSet.send
    rw [if_pos hsent]
  · unfold NewsletterCampaignViewSet.send
    rw [if_neg hns]
    have hempty : activeSubscribers subs = [] := by
      unfold activeSubscribers
      rw [List.filter_eq_nil_iff]
      intro s hs hsp
      exact hall s hs ((hq s).mp hsp)
    rw [hempty]
    rfl
  · unfold NewsletterCampaignViewSet.send
    rw [if_neg hns]
    have hmem : s ∈ activeSubscribers subs := by
      unfold activeSubscribers
      rw [List.mem_filter]
      exact ⟨hs, (hq s).mpr hsa⟩
    have hne : activeSubscribers subs ≠ [] := by
      intro h0
      rw [h0] at hmem
      exact absurd hmem (List.not_mem_nil s)
    rw [if_neg (by rwa [List.isEmpty_iff])]
    have hlen : (activeSubscribers subs).length
        = subs.countP (fun s => s.is_active && s.confirmed_at.isSome) := by
      unfold activeSubscribers
      rw [List.countP_eq_length_filter]
    rw [hlen]

/-- Claim C6: for a published article, running the view-tracking step of
retrieval twice with the same (article, session_key) leaves exactly one
`ArticleView` row for that key, while `views_count` is incremented by both
calls; the persisted article differs from the original in `views_count`
alone (the dedup row is idempotent, the counter is not). -/
theorem track_view_dedup_row_counts_twice (rows : List ArticleViewRow)
    (a : Article) (user : Option Nat) (ip ua ref sk : String)
    (hpub : a.status = ArticleStatus.published)
    (hfresh : ∀ r ∈ rows, ¬(r.article = a.id ∧ r.session_key = sk)) :
    (ArticleViewSet.track_article_view
        (ArticleViewSet.track_article_view rows a user ip ua ref sk).1
        (ArticleViewSet.track_article_view rows a user ip ua ref sk).2
        user ip ua ref sk).1.countP
      (fun r => r.article == a.id && r.session_key == sk) = 1 ∧
    (ArticleViewSet.track_article_view
        (ArticleViewSet.track_article_view rows a user ip ua ref sk).1
        (ArticleViewSet.track_article_view rows a user ip ua ref sk).2
        user ip ua ref sk).2
      = { a with views_count := a.views_count + 2 } ∧
    (ArticleViewSet.track_article_view rows a user ip ua ref sk).2
      = { a with views_count := a.views_count + 1 } := by
  have hpred : ∀ r : ArticleViewRow,
      (r.article == a.id && r.session_key == sk) = true ↔
        (r.article = a.id ∧ r.session_key = sk) := by
    intro r
    rw [Bool.and_eq_true, beq_iff_eq, beq_iff_eq]
  have hany : rows.any (fun r => r.article == a.id && r.session_key == sk) = false := by
    rw [List.any_eq_false]
    intro r hr hp
    exact hfresh r hr ((hpred r).mp hp)
  have hrow1 : (ArticleViewSet.track_article_view rows a user ip ua ref sk).1
      = rows ++ [view_data a.id user ip ua ref sk] := by
    unfold ArticleViewSet.track_article_view
    exact getOrCreateView_of_absent rows _ hany
  have hart1 : (ArticleViewSet.track_article_view rows a user ip ua ref sk).2
      = { a with views_count := a.views_count + 1 } := rfl
  refine ⟨?_, ?_, hart1⟩
  · have hany2 : (rows ++ [view_data a.id user ip ua ref sk]).any
          (fun r => r.article == a.id && r.session_key == sk) = true := by
      rw [List.any_append]
      have : ([view_data a.id user ip ua ref sk] : List ArticleViewRow).any
            (fun r => r.article == a.id && r.session_key == sk) = true := by
        simp [view_data]
      rw [this, Bool.or_true]
    show ((ArticleViewSet.track_article_view
        (ArticleViewSet.track_article_view rows a user ip ua ref sk).1
        (ArticleViewSet.track_article_view rows a user ip ua ref sk).2
        user ip ua ref sk).1).countP
          (fun r => r.article == a.id && r.session_key == sk) = 1
    rw [hart1, hrow1]
    unfold ArticleViewSet.track_article_view
    rw [getOrCreateView_of_present _ _ hany2]
    rw [List.countP_append]
    have h0 : rows.countP (fun r => r.article == a.id && r.session_key == sk) = 0 := by
      rw [List.countP_eq_zero]
      intro r hr hp
      exact hfresh r hr ((hpred r).mp hp)
    rw [h0]
    simp [view_data]
  · rw [hart1]
    rfl

/-- Witness for C6: tracking the same session twice on a fresh published
article leaves one row and a counter of 2. -/
theorem track_view_dedup_witness :
    (ArticleViewSet.track_article_view
        (ArticleViewSet.track_article_view [] artPub none "1.2.3.4" "ua" "" "s1").1
        (ArticleViewSet.track_article_view [] artPub none "1.2.3.4" "ua" "" "s1").2
        none "1.2.3.4" "ua" "" "s1").1.countP
      (fun r => r.article == artPub.id && r.session_key == "s1") = 1 ∧
    (ArticleViewSet.track_article_view
        (ArticleViewSet.track_article_view [] artPub none "1.2.3.4" "ua" "" "s1").1
        (ArticleViewSet.track_article_view [] artPub none "1.2.3.4" "ua" "" "s1").2
        none "1.2.3.4" "ua" "" "s1").2
      = { artPub with views_count := artPub.views_count + 2 } := by
  have h := track_view_dedup_row_counts_twice [] artPub none "1.2.3.4" "ua" "" "s1"
    rfl (by intro r hr; exact absurd hr (List.not_mem_nil r))
  exact ⟨h.1, h.2.1⟩

/-- Claim C5: saving with a blank slug stores the slugified title, or, when
that is taken, the slugified title with the first integer suffix `-1`,
`-2`, … (starting at 1) that is unused — so the second article whose
title slugifies to `t` gets `t-1` and the third `t-2`; the chosen slug is
never one already stored, and saving an article that already has a slug
leaves it unchanged. -/
theorem slug_derivation (slugify : String → String)
    (existingSlugs : List String) (a : Article) :
    (a.slug ≠ "" → (Article.save slugify existingSlugs a).slug = a.slug) ∧
    (a.slug = "" → slugify a.title ∉ existingSlugs →
      (Article.save slugify existingSlugs a).slug = slugify a.title) ∧
    (a.slug = "" →
      (Article.save slugify existingSlugs a).slug ∉ existingSlugs) ∧
    (a.slug = "" → slugify a.title ∈ existingSlugs →
      ∃ k, 1 ≤ k ∧
        (Article.save slugify existingSlugs a).slug
          = slugify a.title ++ "-" ++ toString k ∧
        slugify a.title ++ "-" ++ toString k ∉ existingSlugs ∧
        ∀ j, 1 ≤ j → j < k →
          slugify a.title ++ "-" ++ toString j ∈ existingSlugs) ∧
    (Article.save (fun _ => "t") ["t"] artBlankSlug).slug = "t-1" ∧
    (Article.save (fun _ => "t") ["t", "t-1"] artBlankSlug).slug = "t-2" := by
  have hslug : ∀ (f : String → String) (ex : List String) (b : Article),
      b.slug = "" → (Article.save f ex b).slug = uniqueSlug ex (f b.title) := by
    intro f ex b hb
    rw [save_slug]
    unfold deriveSlug
    rw [if_pos hb]
  refine ⟨?_, ?_, ?_, ?_, ?_, ?_⟩
  · intro h
    rw [save_slug]
    unfold deriveSlug
    rw [if_neg h]
  · intro h hfree
    rw [hslug slugify existingSlugs a h]
    exact uniqueSlug_of_free existingSlugs _ hfree
  · intro h
    rw [hslug slugify existingSlugs a h]
    exact uniqueSlug_not_mem existingSlugs _
  · intro h htaken
    rw [hslug slugify existingSlugs a h]
    exact uniqueSlug_of_taken existingSlugs _ htaken
  · rw [hslug (fun _ => "t") ["t"] artBlankSlug rfl]
    decide
  · rw [hslug (fun _ => "t") ["t", "t-1"] artBlankSlug rfl]
    decide

/-- Witness for C5: a fresh title whose slug is not yet stored keeps the
plain slugified title. -/
theorem slug_derivation_witness :
    (Article.save (fun _ => "fresh") [] artBlankSlug).slug = "fresh" :=
  (slug_derivation (fun _ => "fresh") [] artBlankSlug).2.1 rfl
    (List.not_mem_nil "fresh")

/-- Claim C7: an article saved with non-empty content and no explicit
excerpt gets the content verbatim as excerpt, unless the content exceeds
500 characters, in which case the excerpt is the first 497 characters
followed by `"..."`; content of exactly 650 characters yields the first
497 characters plus `"..."`. -/
theorem excerpt_derivation (slugify : String → String)
    (existingSlugs : List String) (a : Article)
    (hex : a.excerpt = "") (hc : a.content ≠ "") :
    ((Article.save slugify existingSlugs a).excerpt =
      if 500 < pyLen a.content then pyTake a.content 497 ++ "..." else a.content) ∧
    (Article.save (fun s => s) [] art650).excerpt
      = (⟨List.replicate 497 'x'⟩ : String) ++ "..." := by
  have hgen : ∀ (f : String → String) (ex : List String) (b : Article),
      b.excerpt = "" → b.content ≠ "" →
      (Article.save f ex b).excerpt =
        if 500 < pyLen b.content then pyTake b.content 497 ++ "..." else b.content := by
    intro f ex b hbe hbc
    have h1 : (deriveSlug f ex b).excerpt = "" := by
      rw [deriveSlug_excerpt]; exact hbe
    have h2 : (deriveSlug f ex b).content ≠ "" := by
      rw [deriveSlug_content]; exact hbc
    rw [save_excerpt]
    unfold deriveExcerpt
    rw [if_pos ⟨h1, h2⟩]
    dsimp only
    rw [deriveSlug_content]
  refine ⟨hgen slugify existingSlugs a hex hc, ?_⟩
  have hc650 : art650.content ≠ "" := by
    intro h
    have hdata : List.replicate 650 'x' = ([] : List Char) :=
      congrArg String.data h
    have h650 := congrArg List.length hdata
    rw [List.length_replicate, List.length_nil] at h650
    exact absurd h650 (by norm_num)
  rw [hgen (fun s => s) [] art650 rfl hc650]
  have hlen : pyLen art650.content = 650 := by
    show (List.replicate 650 'x').length = 650
    rw [List.length_replicate]
  rw [if_pos (by rw [hlen]; norm_num)]
  have htake : pyTake art650.content 497 = (⟨List.replicate 497 'x'⟩ : String) := by
    show (⟨(List.replicate 650 'x').take 497⟩ : String) = ⟨List.replicate 497 'x'⟩
    have ht : (List.replicate 650 'x').take 497 = List.replicate 497 'x' := by
      rw [List.take_replicate]
      norm_num
    rw [ht]
  rw [htake]

/-- Witness for C7: a short content is used verbatim as the excerpt. -/
theorem excerpt_derivation_witness :
    (Article.save (fun s => s) [] artNoExcerpt).excerpt = "Body" := by
  have h := (excerpt_derivation (fun s => s) [] artNoExcerpt rfl (by decide)).1
  rw [h, if_neg (by decide)]
  rfl

/-- Claim C8: whenever content is present, saving recomputes `read_time` as
`max(1, round(word_count / 200))` with `word_count` the number of
whitespace-separated tokens of the content — hence `read_time ≥ 1`; with
empty content the read-time block is skipped, so a freshly created
article with empty content keeps the field default 0. -/
theorem read_time_derivation (slugify : String → String)
    (existingSlugs : List String) (a : Article) :
    (a.content ≠ "" →
      (Article.save slugify existingSlugs a).read_time
        = max 1 (pyRoundDiv (wordCount a.content) 200) ∧
      1 ≤ (Article.save slugify existingSlugs a).read_time) ∧
    (a.content = "" →
      (Article.save slugify existingSlugs a).read_time = a.read_time) ∧
    (ArticleCreateSerializer.create (fun s => s) [] 7 1 1 "Title" "" ""
      ArticleStatus.draft none).read_time = 0 := by
  have hchain : ∀ (f : String → String) (ex : List String) (b : Article),
      (deriveMeta (deriveExcerpt (deriveSlug f ex b))).content = b.content := by
    intro f ex b
    rw [deriveMeta_content, deriveExcerpt_content, deriveSlug_content]
  have hgen_ne : ∀ (f : String → String) (ex : List String) (b : Article),
      b.content ≠ "" →
      (Article.save f ex b).read_time
        = max 1 (pyRoundDiv (wordCount b.content) 200) := by
    intro f ex b hbc
    rw [save_read_time]
    unfold deriveReadTime
    rw [if_pos (by rw [hchain]; exact hbc)]
    dsimp only
    rw [hchain]
  have hgen_empty : ∀ (f : String → String) (ex : List String) (b : Article),
      b.content = "" → (Article.save f ex b).read_time = b.read_time := by
    intro f ex b hbc
    rw [save_read_time]
    unfold deriveReadTime
    rw [if_neg (by rw [hchain]; intro h; exact h hbc)]
    rw [deriveMeta_read_time, deriveExcerpt_read_time, deriveSlug_read_time]
  refine ⟨fun hc => ⟨hgen_ne slugify existingSlugs a hc, ?_⟩,
    fun hc => hgen_empty slugify existingSlugs a hc, ?_⟩
  · rw [hgen_ne slugify existingSlugs a hc]
    exact le_max_left 1 _
  · unfold ArticleCreateSerializer.create
    dsimp only
    rw [hgen_empty]
    rfl

/-- Witness for C8: two words of content give a read time of one minute. -/
theorem read_time_derivation_witness :
    (Article.save (fun s => s) [] artNoExcerpt).read_time = 1 := by
  have h := ((read_time_derivation (fun s => s) [] artNoExcerpt).1 (by decide)).1
  rw [h]
  decide

/-- Claim C9: the trending query — regardless of the requesting user —
returns exactly the published articles with `published_at ≥ now − days`,
in descending `views_count` order, truncated to the first `limit`
entries: every result is such an article (soundness), the list is
views-sorted and at most `limit` long, every qualifying article appears
whenever they all fit in `limit` (completeness), truncation keeps the
top of the descending order — any qualifying article left out has
`views_count` no greater than every kept entry — and the `days=3,
limit=2` scenario over five published articles with two in-window (views
50, 200) returns those two ordered [200, 50]. -/
theorem trending_spec (user : Option RequestUser) (now days limit : Nat)
    (store : List Article) :
    (∀ a ∈ ArticleViewSet.trending user now days limit store,
        a.status = ArticleStatus.published ∧
          ∃ t, a.published_at = some t ∧ now - days ≤ t) ∧
    (ArticleViewSet.trending user now days limit store =
      ArticleViewSet.trending none now days limit store) ∧
    (ArticleViewSet.trending user now days limit store).Pairwise
        (fun a b => b.views_count ≤ a.views_count) ∧
    ((ArticleViewSet.trending user now days limit store).length =
      min limit (store.filter (fun a =>
        decide (a.status = ArticleStatus.published) && pubAtGe a (now - days))).length) ∧
    (∀ a ∈ store, a.status = ArticleStatus.published →
      (∃ t, a.published_at = some t ∧ now - days ≤ t) →
      (store.filter (fun a =>
          decide (a.status = ArticleStatus.published) &&
            pubAtGe a (now - days))).length ≤ limit →
      a ∈ ArticleViewSet.trending user now days limit store) ∧
    (∀ a ∈ store, a.status = ArticleStatus.published →
      (∃ t, a.published_at = some t ∧ now - days ≤ t) →
      a ∉ ArticleViewSet.trending user now days limit store →
      ∀ b ∈ ArticleViewSet.trending user now days limit store,
        a.views_count ≤ b.views_count) ∧
    ArticleViewSet.trending none 10 3 2 trendingScenarioStore
      = [mkPubArt 2 200 (some 9), mkPubArt 1 50 (some 8)] := by
  have heq := trending_eq user now days limit store
  have htrans : ∀ a b c : Article,
      (fun a b => decide (b.views_count ≤ a.views_count)) a b →
      (fun a b => decide (b.views_count ≤ a.views_count)) b c →
      (fun a b => decide (b.views_count ≤ a.views_count)) a c := by
    intro a b c hab hbc
    simp only [decide_eq_true_eq] at hab hbc ⊢
    omega
  have htotal : ∀ a b : Article,
      ((fun a b => decide (b.views_count ≤ a.views_count)) a b ||
        (fun a b => decide (b.views_count ≤ a.views_count)) b a) = true := by
    intro a b
    rw [Bool.or_eq_true]
    rcases Nat.le_total b.views_count a.views_count with h | h
    · exact Or.inl (decide_eq_true h)
    · exact Or.inr (decide_eq_true h)
  refine ⟨?_, ?_, ?_, ?_, ?_, ?_, ?_⟩
  · intro a ha
    rw [heq] at ha
    have ha2 := List.mem_mergeSort.mp (List.mem_of_mem_take ha)
    rw [List.mem_filter, Bool.and_eq_true] at ha2
    exact ⟨of_decide_eq_true ha2.2.1, (pubAtGe_iff a _).mp ha2.2.2⟩
  · rw [heq, trending_eq]
  · rw [heq]
    have hsorted := List.sorted_mergeSort htrans htotal
      (store.filter (fun a => decide (a.status = ArticleStatus.published) &&
        pubAtGe a (now - days)))
    have hP : ((store.filter (fun a =>
        decide (a.status = ArticleStatus.published) &&
          pubAtGe a (now - days))).mergeSort
        (fun a b => decide (b.views_count ≤ a.views_count))).Pairwise
        (fun a b : Article => b.views_count ≤ a.views_count) :=
      hsorted.imp (fun h => of_decide_eq_true h)
    exact hP.sublist (List.take_sublist _ _)
  · rw [heq, List.length_take, List.length_mergeSort]
  · intro a ha hpub hex hlen
    rw [heq]
    have hmem : a ∈ store.filter (fun a =>
        decide (a.status = ArticleStatus.published) && pubAtGe a (now - days)) := by
      rw [List.mem_filter, Bool.and_eq_true]
      exact ⟨ha, decide_eq_true hpub, (pubAtGe_iff a _).mpr hex⟩
    have htk : ((store.filter (fun a =>
        decide (a.status = ArticleStatus.published) &&
          pubAtGe a (now - days))).mergeSort
        (fun a b => decide (b.views_count ≤ a.views_count))).take limit
        = (store.filter (fun a =>
        decide (a.status = ArticleStatus.published) &&
          pubAtGe a (now - days))).mergeSort
        (fun a b => decide (b.views_count ≤ a.views_count)) := by
      apply List.take_of_length_le
      rw [List.length_mergeSort]
      exact hlen
    rw [htk, List.mem_mergeSort]
    exact hmem
  · intro a ha hpub hex hnot b hb
    rw [heq] at hnot hb
    have hmemF : a ∈ store.filter (fun a =>
        decide (a.status = ArticleStatus.published) && pubAtGe a (now - days)) := by
      rw [List.mem_filter, Bool.and_eq_true]
      exact ⟨ha, decide_eq_true hpub, (pubAtGe_iff a _).mpr hex⟩
    have hmemM : a ∈ (store.filter (fun a =>
        decide (a.status = ArticleStatus.published) &&
          pubAtGe a (now - days))).mergeSort
        (fun a b => decide (b.views_count ≤ a.views_count)) :=
      List.mem_mergeSort.mpr hmemF
    have hsplit := List.take_append_drop limit ((store.filter (fun a =>
        decide (a.status = ArticleStatus.published) &&
          pubAtGe a (now - days))).mergeSort
        (fun a b => decide (b.views_count ≤ a.views_count)))
    have hdrop : a ∈ ((store.filter (fun a =>
        decide (a.status = ArticleStatus.published) &&
          pubAtGe a (now - days))).mergeSort
        (fun a b => decide (b.views_count ≤ a.views_count))).drop limit := by
      rw [← hsplit, List.mem_append] at hmemM
      rcases hmemM with h | h
      · exact absurd h hnot
      · exact h
    have hpw := List.sorted_mergeSort htrans htotal
      (store.filter (fun a => decide (a.status = ArticleStatus.published) &&
        pubAtGe a (now - days)))
    rw [← hsplit] at hpw
    have hcross := (List.pairwise_append.mp hpw).2.2
    exact of_decide_eq_true (hcross b hb a hdrop)
  · rw [trending_eq]
    simp [trendingScenarioStore, mkPubArt, pubAtGe, List.mergeSort,
      List.splitInTwo, List.splitAt, List.splitAt.go, List.merge]

/-- Witness for C9: a single in-window published article appears in its
own trending list. -/
theorem trending_spec_witness :
    artPub ∈ ArticleViewSet.trending none 10 7 5 [artPub] :=
  (trending_spec none 10 7 5 [artPub]).2.2.2.2.1 artPub (by decide) rfl
    ⟨5, rfl, by decide⟩ (by decide)

/-- Claim C1 (refuted by the wiring; the validator is the clear intent): the
viewset routes updates to `ArticleUpdateSerializer`, which defines no
`validate_status`, so an API update moving a published article back to
`draft` succeeds; the ValidationError the claim describes exists only in
`ArticleCreateUpdateSerializer.validate_status`, which
`get_serializer_class` never selects (the class is not even imported by
`views.py`). -/
theorem published_to_draft_update_accepted :
    articleGetSerializerClass ApiAction.update
      = ArticleSerializerClass.articleUpdateSerializer ∧
    articleGetSerializerClass ApiAction.patch
      = ArticleSerializerClass.articleUpdateSerializer ∧
    articleApiUpdate (fun s => s) [] artPub draftStatusData
      = Except.ok { artPub with status := ArticleStatus.draft } ∧
    ArticleCreateUpdateSerializer.validate_status (some artPub)
        ArticleStatus.draft
      = Except.error "Cannot change published article back to draft" :=
  ⟨rfl, rfl, rfl, rfl⟩

/-- Claim C2 (refuted on the update path; stamping on update exists only in
the unwired serializer): creating an article directly as `published`
stamps `published_at = now`, but an API update that moves a draft to
`published` runs `ArticleUpdateSerializer` — the inherited
`ModelSerializer.update` with no stamping — so `published_at` stays
`None`; the stamping code for updates lives in
`ArticleCreateUpdateSerializer.update`, which the viewset never selects. -/
theorem published_at_not_stamped_on_api_update :
    (ArticleCreateSerializer.create (fun s => s) [] 42 1 3 "Title"
        "Some words" "ex" ArticleStatus.published none).published_at
      = some 42 ∧
    articleApiUpdate (fun s => s) [] artDraftNoPub publishStatusData
      = Except.ok { artDraftNoPub with status := ArticleStatus.published } ∧
    (ArticleUpdateSerializer.update (fun s => s) [] artDraftNoPub
        publishStatusData).published_at = none ∧
    (ArticleCreateUpdateSerializer.update (fun s => s) [] 42 artDraftNoPub
        publishStatusData).published_at = some 42 := by
  refine ⟨?_, rfl, ?_, ?_⟩
  · unfold ArticleCreateSerializer.create
    dsimp only
    rw [save_published_at]
    rfl
  · unfold ArticleUpdateSerializer.update
    rw [save_published_at]
    rfl
  · unfold ArticleCreateUpdateSerializer.update
    dsimp only
    rw [save_published_at]
    rfl

/-- Claim C3 (refuted by the wiring; the validator is the clear intent): the
campaign viewset routes updates to
`NewsletterCampaignCreateUpdateSerializer`, which has no `validate_status`
and inherits the default `ModelSerializer.update`, so an API update moving
a `sent` campaign back to `draft` succeeds; the rejection exists only on
`NewsletterCampaignSerializer`, which is selected for `retrieve` alone. -/
theorem sent_campaign_status_update_accepted :
    campaignGetSerializerClass ApiAction.update
      = CampaignSerializerClass.campaignCreateUpdateSerializer ∧
    campaignGetSerializerClass ApiAction.patch
      = CampaignSerializerClass.campaignCreateUpdateSerializer ∧
    campaignGetSerializerClass ApiAction.retrieve
      = CampaignSerializerClass.campaignSerializer ∧
    campaignApiUpdate campSent campaignDraftStatusData
      = Except.ok { campSent with status := CampaignStatus.draft } ∧
    NewsletterCampaignSerializer.validate_status (some campSent)
        CampaignStatus.draft
      = Except.error "Cannot change status of sent campaign" :=
  ⟨rfl, rfl, rfl, rfl, rfl⟩

/-- Claim C10: anonymous requests see only `published` articles; an
authenticated non-staff user sees published articles plus their own, so
any non-published article they can see is their own. -/
theorem queryset_visibility (store : List Article) (u : RequestUser)
    (hstaff : u.is_staff = false) :
    (∀ a ∈ ArticleViewSet.get_queryset none store,
        a.status = ArticleStatus.published) ∧
    (∀ a ∈ ArticleViewSet.get_queryset (some u) store,
        a.status = ArticleStatus.published ∨ a.author = u.id) ∧
    (∀ a ∈ ArticleViewSet.get_queryset (some u) store,
        a.status ≠ ArticleStatus.published → a.author = u.id) := by
  have hns : ¬ (u.is_staff = true) := by
    rw [hstaff]
    exact Bool.false_ne_true
  have hmem : ∀ a ∈ ArticleViewSet.get_queryset (some u) store,
      a.status = ArticleStatus.published ∨ a.author = u.id := by
    intro a ha
    unfold ArticleViewSet.get_queryset at ha
    dsimp only at ha
    rw [if_neg hns, List.mem_filter, Bool.or_eq_true] at ha
    rcases ha.2 with h | h
    · exact Or.inl (of_decide_eq_true h)
    · exact Or.inr (of_decide_eq_true h)
  refine ⟨?_, hmem, ?_⟩
  · intro a ha
    unfold ArticleViewSet.get_queryset at ha
    dsimp only at ha
    rw [List.mem_filter] at ha
    exact of_decide_eq_true ha.2
  · intro a ha hnp
    rcases hmem a ha with h | h
    · exact absurd h hnp
    · exact h

/-- Witness for C10: the author of a draft can see it and is its owner. -/
theorem queryset_visibility_witness :
    artPub.status = ArticleStatus.published :=
  (queryset_visibility [artPub] { id := 5, is_staff := false } rfl).1 artPub
    (by decide)

/-- Witness for C4: a draft campaign with one confirmed active subscriber
is marked sent with `sent_count = 1`. -/
theorem send_campaign_spec_witness :
    NewsletterCampaignViewSet.send 3 campDraft [subOk] =
      Except.ok { campDraft with
        status := CampaignStatus.sent
        sent_at := some 3
        sent_count := 1 } :=
  (send_campaign_spec 3 campDraft [subOk]).2.2 (by decide)
    ⟨subOk, by decide, by decide, by decide⟩

end Newly
